import Mathlib

/-!
Verification of the fetch-dedup-post pipeline of xsukax RSS to Mastodon
(single source file xrss2mas.py). Python strings are embedded as lists of
characters (Python length and slicing count code points, matching
List Char), SQLite tables as Lean lists, and the network as explicit
oracle functions passed to the run engine. Publish attempts and feed
fetches are recorded in ghost traces so that claims about "never
publishes" and "does not fetch" are stated about observable events.
-/

namespace Xrss

/-- Python strings are modelled as lists of characters. -/
abbrev PyStr := List Char

/-- Python str.strip with no arguments: remove whitespace from both ends. -/
def pyStrip (s : PyStr) : PyStr :=
  ((s.dropWhile Char.isWhitespace).reverse.dropWhile Char.isWhitespace).reverse

/-- Python truthiness-based `a or b` on strings: `a` when non-empty, else `b`. -/
def orElseStr (a b : PyStr) : PyStr :=
  if a = [] then b else a

/-- One character class of the regex `\w` (used with re.UNICODE in the source);
alphanumeric or underscore.  Modelled with the ASCII-alphanumeric test. -/
def isWordChar (c : Char) : Bool :=
  c.isAlphanum || c = '_'

/-- Modelled from the source call to html.unescape: decodes the standard named
character references and the one numeric reference the tests need; the real
Python table is larger, but no claim depends on the decoded text. -/
def html_unescape : PyStr → PyStr
  | [] => []
  | '&' :: 'a' :: 'm' :: 'p' :: ';' :: rest => '&' :: html_unescape rest
  | '&' :: 'l' :: 't' :: ';' :: rest => '<' :: html_unescape rest
  | '&' :: 'g' :: 't' :: ';' :: rest => '>' :: html_unescape rest
  | '&' :: 'q' :: 'u' :: 'o' :: 't' :: ';' :: rest => Char.ofNat 34 :: html_unescape rest
  | '&' :: '#' :: '3' :: '9' :: ';' :: rest => Char.ofNat 39 :: html_unescape rest
  | c :: rest => c :: html_unescape rest

/-- Helper for stripTags with explicit fuel (one unit per consumed character,
so fuel = length of the input always suffices). On a '<' it looks for the
next '>' with at least one character in between, exactly the matches of the
regex `<[^>]+>`, and removes the match; otherwise the character is kept. -/
def stripTagsAux : Nat → PyStr → PyStr
  | _, [] => []
  | 0, s => s
  | fuel + 1, c :: rest =>
    if c = '<' then
      match rest.dropWhile (fun x => x != '>') with
      | _ :: tail =>
        if rest.takeWhile (fun x => x != '>') = [] then c :: stripTagsAux fuel rest
        else stripTagsAux fuel tail
      | [] => c :: stripTagsAux fuel rest
    else c :: stripTagsAux fuel rest

/-- Python re.sub applied with pattern `<[^>]+>` and empty replacement:
delete every markup tag. -/
def stripTags (s : PyStr) : PyStr :=
  stripTagsAux s.length s

/-- Candidate item produced by parse_feed: the dict with keys guid, title,
link, desc. -/
structure Item where
  guid : PyStr
  title : PyStr
  link : PyStr
  desc : PyStr
deriving DecidableEq

/-- One feedparser entry as the source reads it: each field is the optional
attribute value (getattr with default None / absence).  The content field
already stands for `e.content[0].get("value","")` when `e.content` is a
non-empty list, and none when the attribute is absent or the list empty. -/
structure Entry where
  id : Option PyStr
  link : Option PyStr
  title : Option PyStr
  summary : Option PyStr
  content : Option PyStr
deriving DecidableEq

/-- Normalization of one entry, from the loop body of parse_feed:
guid is `(e.id or e.link or "").strip()`, title defaults to "Untitled",
the body text is tag-stripped, unescaped and truncated to 200 characters
with an ellipsis, and entries whose guid is empty are dropped. -/
def normalizeEntry (e : Entry) : Option Item :=
  let guid := pyStrip (orElseStr (e.id.getD []) (orElseStr (e.link.getD []) []))
  let title := html_unescape (pyStrip (e.title.getD "Untitled".toList))
  let link := pyStrip (e.link.getD [])
  let desc0 :=
    match e.summary with
    | some s => s
    | none => match e.content with | some v => v | none => []
  let desc1 := html_unescape (pyStrip (stripTags desc0))
  let desc := if desc1.length > 200 then desc1.take 200 ++ "…".toList else desc1
  if guid ≠ [] then some ⟨guid, title, link, desc⟩ else none

/-- parse_feed over the outcome of the feedparser call: the whole body runs
in a try block, so an exception anywhere (network error, malformed document,
timeout) yields the error branch and the function returns the empty list;
otherwise each entry is normalized in order. -/
def parse_feed (r : Except PyStr (List Entry)) : List Item :=
  match r with
  | Except.error _ => []
  | Except.ok entries => entries.filterMap normalizeEntry

/-- Source constant POST_LIMIT: max new posts per feed/account pair per run. -/
def POST_LIMIT : Nat := 5

/-- Source constant RSS_INTERVAL_MINS: feed check interval in minutes. -/
def RSS_INTERVAL_MINS : Nat := 30

/-- format_toot local src: `feed_name or "RSS Feed"`. -/
def toot_src (feed_name : PyStr) : PyStr :=
  if feed_name = [] then "RSS Feed".toList else feed_name

/-- The syntactically valid hashtag tokens of the comma-separated feed tag
list: each piece is stripped, leading '#' removed, and kept only when
non-empty and made of word characters (the regex `^\w+$`). -/
def valid_tags (hashtags : PyStr) : List PyStr :=
  ((hashtags.splitOn ',').map (fun t => (pyStrip t).dropWhile (fun c => c = '#'))).filter
    (fun t => !t.isEmpty && t.all isWordChar)

/-- format_toot local tags: the two fixed tags followed by every valid feed
tag, space separated. -/
def toot_tags (hashtags : PyStr) : PyStr :=
  List.intercalate " ".toList
    (["#RSS".toList, "#xsukaxRSS".toList] ++ (valid_tags hashtags).map (fun t => '#' :: t))

/-- format_toot local base of the overflow branch: the whole message with the
title removed, used to compute the remaining title budget. -/
def toot_base (item : Item) (feed_name : PyStr) (hashtags : PyStr) : PyStr :=
  "📰 ".toList ++ toot_src feed_name ++ "\n\n\n\n".toList ++ item.link
    ++ "\n\n".toList ++ toot_tags hashtags

/-- format_toot: build the status message; when the naive composition
exceeds 490 characters, truncate the title to the remaining budget
(at least 10 characters) and append an ellipsis. -/
def format_toot (item : Item) (feed_name : PyStr) (hashtags : PyStr) : PyStr :=
  let src := toot_src feed_name
  let tags := toot_tags hashtags
  let body0 := "📰 ".toList ++ src ++ "\n\n".toList ++ item.title
  let body1 := if item.link ≠ [] then body0 ++ "\n\n".toList ++ item.link else body0
  let body2 := body1 ++ "\n\n".toList ++ tags
  if body2.length > 490 then
    let budget := max 10 (490 - (toot_base item feed_name hashtags).length)
    let over0 := "📰 ".toList ++ src ++ "\n\n".toList ++ item.title.take budget ++ "…".toList
    let over1 := if item.link ≠ [] then over0 ++ "\n\n".toList ++ item.link else over0
    over1 ++ "\n\n".toList ++ tags
  else body2

/-- Truncation toward zero, the behaviour of Python int() on a float.  The
source computes the percentage in floating point; it is modelled here with
exact rational arithmetic, which agrees at every value the claims touch. -/
def ratTrunc (q : ℚ) : Int :=
  if q < 0 then ⌈q⌉ else ⌊q⌋

/-- The pct value of next_run_info as a function of the non-negative seconds
remaining: `min(100, int(100 - secs / (RSS_INTERVAL_MINS * 60) * 100))`. -/
def next_run_pct (secs : Nat) : Int :=
  min 100 (ratTrunc (100 - (secs : ℚ) / ((RSS_INTERVAL_MINS * 60 : Nat) : ℚ) * 100))

/-- Modelled from the spec: percentage elapsed of the current interval,
computed as 100 − remaining/intervalSeconds×100 and clamped to [0, 100]. -/
def spec_percent_elapsed (secs : Nat) : Int :=
  max 0 (min 100 (ratTrunc (100 - (secs : ℚ) / ((RSS_INTERVAL_MINS * 60 : Nat) : ℚ) * 100)))

/-- One Mastodon account row, restricted to the columns the run engine
reads (id, instance_url, access_token, account_name). -/
structure Account where
  id : Nat
  instance_url : PyStr
  access_token : PyStr
  account_name : PyStr
deriving DecidableEq

/-- One feed row, restricted to the columns the run engine reads.  The
last_fetched_at / last_status writes are modelled as a trace in the run
state since the run never reads them back. -/
structure Feed where
  id : Nat
  url : PyStr
  name : PyStr
  hashtags : PyStr
  active : Bool
deriving DecidableEq

/-- A ledger key: (feed_id, account_id, item_guid), the UNIQUE triple of the
posted_items table. -/
abbrev Triple := Nat × Nat × PyStr

/-- The database state the run engine touches: feeds (in ascending id
order, the ORDER BY of the query), accounts, the feed_accounts link table
and the posted_items dedup ledger. -/
structure DB where
  feeds : List Feed
  accounts : List Account
  feed_accounts : List (Nat × Nat)
  posted_items : List Triple
deriving DecidableEq

/-- The dedup query `SELECT 1 FROM posted_items WHERE feed_id=? AND
account_id=? AND item_guid=?`: true when a matching ledger row exists. -/
def has_posted (ledger : List Triple) (fid aid : Nat) (guid : PyStr) : Bool :=
  decide ((fid, aid, guid) ∈ ledger)

/-- The statement INSERT OR IGNORE INTO posted_items: under the UNIQUE
constraint on the triple, a duplicate insert is ignored and a new triple is
appended. -/
def insertPosted (ledger : List Triple) (t : Triple) : List Triple :=
  if t ∈ ledger then ledger else ledger ++ [t]

/-- Outcome of one publish call: ok when the response json carries a truthy
id, apiError when it does not (diag is the error field or response text),
exn when the call raised. -/
inductive PubResult where
  | ok (remoteId : PyStr)
  | apiError (diag : PyStr)
  | exn (msg : PyStr)
deriving DecidableEq

/-- Modelled from the source use of urlparse(...).hostname: the text after
"://" up to the next delimiter, lowercased; empty when the URL carries no
"://" (hostname None makes account_display fall back to the whole string). -/
def splitScheme : PyStr → Option PyStr
  | ':' :: '/' :: '/' :: rest => some rest
  | _ :: rest => splitScheme rest
  | [] => none

/-- Host part of an instance URL, see splitScheme. -/
def hostOf (u : PyStr) : PyStr :=
  match splitScheme u with
  | none => []
  | some rest =>
    (rest.takeWhile (fun c => !(c = '/' || c = ':' || c = '?' || c = '#'))).map Char.toLower

/-- account_display: `"{account_name} @ {host}"` with the hostname of the
instance URL, falling back to the full URL when no hostname parses. -/
def account_display (a : Account) : PyStr :=
  let host := if hostOf a.instance_url = [] then a.instance_url else hostOf a.instance_url
  a.account_name ++ " @ ".toList ++ host

/-- Detail line `⚠ No accounts linked: {feed name}`. -/
def noAccountsLine (name : PyStr) : PyStr :=
  "⚠ No accounts linked: ".toList ++ name

/-- Detail line `✗ Fetch failed: {feed url}`. -/
def fetchFailedLine (url : PyStr) : PyStr :=
  "✗ Fetch failed: ".toList ++ url

/-- Detail line `✓ [{lbl}] {title[:60]}`. -/
def postOkLine (lbl title : PyStr) : PyStr :=
  "✓ [".toList ++ lbl ++ "] ".toList ++ title.take 60

/-- Detail line `✗ [{lbl}] API: {diag}`. -/
def apiErrorLine (lbl diag : PyStr) : PyStr :=
  "✗ [".toList ++ lbl ++ "] API: ".toList ++ diag

/-- Detail line `✗ [{lbl}] Exception: {msg[:70]}`. -/
def exnLine (lbl msg : PyStr) : PyStr :=
  "✗ [".toList ++ lbl ++ "] Exception: ".toList ++ msg.take 70

/-- Mutable state of one execute_feed_run pass: the counters and detail
lines of the source, the live posted_items ledger, plus ghost traces of the
publish attempts (pubs), the fetched feed ids (fetches), and the
last_status writes (statusWrites). -/
structure RunState where
  posted : Nat
  skipped : Nat
  errors : Nat
  lines : List PyStr
  postedItems : List Triple
  pubs : List Triple
  fetches : List Nat
  statusWrites : List (Nat × PyStr)
deriving DecidableEq

/-- State at the start of a run: zero counters, no lines, and the ledger as
stored in the database. -/
def initState (db : DB) : RunState :=
  ⟨0, 0, 0, [], db.posted_items, [], [], []⟩

/-- One iteration of the inner `for item in to_post` loop: the publish call
(traced in pubs), then on success the ledger insert, posted increment and a
success line; on an error payload or an exception an error increment and a
failure line. -/
def post_one (pub : Account → PyStr → PubResult) (feed : Feed) (acc : Account)
    (st : RunState) (item : Item) : RunState :=
  let lbl := account_display acc
  let status := format_toot item feed.name feed.hashtags
  let st1 := { st with pubs := st.pubs ++ [(feed.id, acc.id, item.guid)] }
  match pub acc status with
  | PubResult.ok _ =>
    { st1 with
      postedItems := insertPosted st1.postedItems (feed.id, acc.id, item.guid)
      posted := st1.posted + 1
      lines := st1.lines ++ [postOkLine lbl item.title] }
  | PubResult.apiError diag =>
    { st1 with errors := st1.errors + 1, lines := st1.lines ++ [apiErrorLine lbl diag] }
  | PubResult.exn msg =>
    { st1 with errors := st1.errors + 1, lines := st1.lines ++ [exnLine lbl msg] }

/-- One iteration of the `for acc in accs` loop: filter the fetched items to
the unseen ones against the current ledger, reverse to oldest-first, cap at
POST_LIMIT, add the excess to skipped, and post each capped item. -/
def process_account (pub : Account → PyStr → PubResult) (feed : Feed) (items : List Item)
    (st : RunState) (acc : Account) : RunState :=
  let unseen := items.filter (fun i => !(has_posted st.postedItems feed.id acc.id i.guid))
  let unseenR := unseen.reverse
  let to_post := unseenR.take POST_LIMIT
  let st1 := { st with skipped := st.skipped + (unseenR.length - POST_LIMIT) }
  to_post.foldl (post_one pub feed acc) st1

/-- The account query of the feed loop: accounts joined through
feed_accounts for this feed, restricted to a non-empty access token. -/
def linked_accounts (db : DB) (feed : Feed) : List Account :=
  db.accounts.filter
    (fun a => decide ((feed.id, a.id) ∈ db.feed_accounts) && decide (a.access_token ≠ []))

/-- One iteration of the `for feed in feeds` loop: with no eligible account,
one informational line and no fetch; otherwise fetch once, record the status
write, and either count one fetch error (empty result) or process every
linked account. -/
def process_feed (fetch : Feed → List Item) (pub : Account → PyStr → PubResult) (db : DB)
    (st : RunState) (feed : Feed) : RunState :=
  let accs := linked_accounts db feed
  if accs = [] then
    { st with lines := st.lines ++ [noAccountsLine feed.name] }
  else
    let items := fetch feed
    let st1 := { st with
      fetches := st.fetches ++ [feed.id]
      statusWrites := st.statusWrites ++ [(feed.id, (if items = [] then "error" else "ok").toList)] }
    if items = [] then
      { st1 with errors := st1.errors + 1, lines := st1.lines ++ [fetchFailedLine feed.url] }
    else
      accs.foldl (process_account pub feed items) st1

/-- execute_feed_run: one full pass over the active feeds, starting from the
stored ledger.  The fetch oracle stands for parse_feed on the feed URL and
the pub oracle for the Mastodon status POST. -/
def execute_feed_run (fetch : Feed → List Item) (pub : Account → PyStr → PubResult)
    (db : DB) : RunState :=
  let actives := db.feeds.filter (fun f => f.active)
  if actives = [] then
    { initState db with lines := ["No active feeds.".toList] }
  else
    actives.foldl (process_feed fetch pub db) (initState db)

/-- Run invariant for the dedup claims, relative to the ledger rows present
when the run began: the initial rows stay in the ledger, no publish attempt
targets an initial row, and posted never exceeds the number of attempts. -/
def RunInv (base : List Triple) (st : RunState) : Prop :=
  (∀ t ∈ base, t ∈ st.postedItems) ∧ (∀ t ∈ st.pubs, t ∉ base) ∧ st.posted ≤ st.pubs.length

/-- Membership in the ledger survives any insert. -/
theorem mem_insertPosted {l : List Triple} {x t : Triple} (h : t ∈ l) :
    t ∈ insertPosted l x := by
  unfold insertPosted
  split
  · exact h
  · exact List.mem_append_left _ h

/-- Inserting an already present triple leaves the ledger unchanged. -/
theorem insertPosted_mem_eq {l : List Triple} {t : Triple} (h : t ∈ l) :
    insertPosted l t = l := by
  unfold insertPosted
  rw [if_pos h]

/-- Shape of one post_one step, whatever the publish outcome: exactly one
publish attempt is appended, skipped never moves, posted grows by at most
one, and the ledger only grows. -/
theorem post_one_spec (pub : Account → PyStr → PubResult) (feed : Feed) (acc : Account)
    (st : RunState) (item : Item) :
    (post_one pub feed acc st item).pubs = st.pubs ++ [(feed.id, acc.id, item.guid)] ∧
    (post_one pub feed acc st item).skipped = st.skipped ∧
    (post_one pub feed acc st item).posted ≤ st.posted + 1 ∧
    (∀ t ∈ st.postedItems, t ∈ (post_one pub feed acc st item).postedItems) := by
  cases h : pub acc (format_toot item feed.name feed.hashtags) with
  | ok remoteId =>
    refine ⟨by simp [post_one, h], by simp [post_one, h], by simp [post_one, h], ?_⟩
    intro t ht
    simp only [post_one, h]
    exact mem_insertPosted ht
  | apiError diag => refine ⟨?_, ?_, ?_, ?_⟩ <;> simp [post_one, h]
  | exn msg => refine ⟨?_, ?_, ?_, ?_⟩ <;> simp [post_one, h]

/-- The inner posting loop appends one publish attempt per item, in order,
and leaves skipped untouched. -/
theorem foldl_post_one_pubs (pub : Account → PyStr → PubResult) (feed : Feed) (acc : Account) :
    ∀ (l : List Item) (st : RunState),
      ((l.foldl (post_one pub feed acc) st).pubs
          = st.pubs ++ l.map (fun i => (feed.id, acc.id, i.guid))) ∧
      (l.foldl (post_one pub feed acc) st).skipped = st.skipped := by
  intro l
  induction l with
  | nil => intro st; simp
  | cons i l ih =>
    intro st
    have h := post_one_spec pub feed acc st i
    refine ⟨?_, ?_⟩
    · rw [List.foldl_cons, (ih _).1, h.1]
      simp
    · rw [List.foldl_cons, (ih _).2, h.2.1]

/-- Generic preservation of a predicate along a left fold. -/
theorem foldl_preserves {σ α : Type _} {f : σ → α → σ} {P : σ → Prop}
    (hstep : ∀ s a, P s → P (f s a)) :
    ∀ (l : List α) (s : σ), P s → P (List.foldl f s l) := by
  intro l
  induction l with
  | nil => intro s h; simpa using h
  | cons a l ih =>
    intro s h
    rw [List.foldl_cons]
    exact ih _ (hstep s a h)

/-- One post_one step preserves the run invariant, provided the attempted
triple is not one of the initial ledger rows. -/
theorem post_one_inv (pub : Account → PyStr → PubResult) (feed : Feed) (acc : Account)
    (item : Item) {base : List Triple} {st : RunState}
    (hnew : (feed.id, acc.id, item.guid) ∉ base) (h : RunInv base st) :
    RunInv base (post_one pub feed acc st item) := by
  obtain ⟨h1, h2, h3⟩ := h
  obtain ⟨hp, _, hposted, hledger⟩ := post_one_spec pub feed acc st item
  refine ⟨fun t ht => hledger t (h1 t ht), ?_, ?_⟩
  · intro t ht
    rw [hp] at ht
    rcases List.mem_append.mp ht with hold | hnewm
    · exact h2 t hold
    · rw [List.mem_singleton.mp hnewm]
      exact hnew
  · calc (post_one pub feed acc st item).posted ≤ st.posted + 1 := hposted
      _ ≤ st.pubs.length + 1 := by omega
      _ = (post_one pub feed acc st item).pubs.length := by rw [hp]; simp

/-- The inner posting loop preserves the run invariant when none of the
items posted carries an initial ledger triple. -/
theorem foldl_post_one_inv (pub : Account → PyStr → PubResult) (feed : Feed) (acc : Account)
    (base : List Triple) :
    ∀ (l : List Item) (st : RunState),
      (∀ i ∈ l, (feed.id, acc.id, i.guid) ∉ base) → RunInv base st →
      RunInv base (l.foldl (post_one pub feed acc) st) := by
  intro l
  induction l with
  | nil => intro st _ h; simpa using h
  | cons i l ih =>
    intro st hl h
    rw [List.foldl_cons]
    exact ih _ (fun j hj => hl j (List.mem_cons_of_mem _ hj))
      (post_one_inv pub feed acc i (hl i (List.mem_cons_self _ _)) h)

/-- Processing one account preserves the run invariant: only items unseen in
the current ledger (hence not initial rows) are ever posted. -/
theorem process_account_inv (pub : Account → PyStr → PubResult) (feed : Feed)
    (items : List Item) (acc : Account) {base : List Triple} {st : RunState}
    (h : RunInv base st) :
    RunInv base (process_account pub feed items st acc) := by
  simp only [process_account]
  apply foldl_post_one_inv
  · intro i hi hbase
    have hmem : i ∈ items.filter
        (fun i => !(has_posted st.postedItems feed.id acc.id i.guid)) :=
      List.mem_reverse.mp (List.take_subset _ _ hi)
    have hfilter := (List.mem_filter.mp hmem).2
    have hin : (feed.id, acc.id, i.guid) ∈ st.postedItems := h.1 _ hbase
    simp [has_posted, hin] at hfilter
  · exact ⟨h.1, h.2.1, h.2.2⟩

/-- Processing one feed preserves the run invariant. -/
theorem process_feed_inv (fetch : Feed → List Item) (pub : Account → PyStr → PubResult)
    (db : DB) (feed : Feed) {base : List Triple} {st : RunState} (h : RunInv base st) :
    RunInv base (process_feed fetch pub db st feed) := by
  simp only [process_feed]
  split
  · exact ⟨h.1, h.2.1, h.2.2⟩
  · split
    · exact ⟨h.1, h.2.1, h.2.2⟩
    · exact foldl_preserves
        (fun s a hs => process_account_inv pub feed _ a hs) _ _ ⟨h.1, h.2.1, h.2.2⟩

/-- C1: for every run and every (feed, account) pair, an item whose
(feed id, account id, guid) triple already has a ledger entry in
posted_items is never published again during that run, and the posted count
never exceeds the number of publish attempts, each of which targets a triple
that had no ledger entry when its pair was processed. -/
theorem claim_C1_no_republish (fetch : Feed → List Item)
    (pub : Account → PyStr → PubResult) (db : DB) :
    (∀ t ∈ db.posted_items, t ∉ (execute_feed_run fetch pub db).pubs) ∧
    (execute_feed_run fetch pub db).posted ≤ (execute_feed_run fetch pub db).pubs.length := by
  have hinit : RunInv db.posted_items (initState db) := by
    refine ⟨fun t ht => ht, ?_, ?_⟩ <;> simp [initState]
  have hrun : RunInv db.posted_items (execute_feed_run fetch pub db) := by
    simp only [execute_feed_run]
    split
    · exact ⟨hinit.1, hinit.2.1, hinit.2.2⟩
    · exact foldl_preserves (fun s a hs => process_feed_inv fetch pub db a hs) _ _ hinit
  exact ⟨fun t ht hpub => hrun.2.1 t hpub ht, hrun.2.2⟩

/-- C1 witness: with a one-feed one-account database whose ledger already
holds the triple of the only fetched item, the run makes no publish attempt
for that triple. -/
theorem claim_C1_no_republish_witness :
    ((1 : Nat), (1 : Nat), "g".toList) ∉
      (execute_feed_run
        (fun _ => [⟨"g".toList, "T".toList, "http://l".toList, []⟩])
        (fun _ _ => PubResult.ok "1".toList)
        ⟨[⟨1, "http://f".toList, "F".toList, [], true⟩],
         [⟨1, "http://m".toList, "tok".toList, "@a".toList⟩],
         [(1, 1)], [(1, 1, "g".toList)]⟩).pubs :=
  (claim_C1_no_republish _ _ _).1 (1, 1, "g".toList) (by decide)

/-- C3: for every (feed, account) pair, with n unseen items among the
fetched ones (newest-first), the pass publishes exactly min(n, POST_LIMIT)
attempts, in the reverse of the fetched order (oldest first), and adds
exactly n − POST_LIMIT (truncated at zero, that is max(0, n − 5)) to the
skipped count for the pair. -/
theorem claim_C3_cap_order_skip (pub : Account → PyStr → PubResult) (feed : Feed)
    (items : List Item) (st : RunState) (acc : Account) :
    (process_account pub feed items st acc).pubs
        = st.pubs ++ (((items.filter
            (fun i => !(has_posted st.postedItems feed.id acc.id i.guid))).reverse.take
              POST_LIMIT).map (fun i => (feed.id, acc.id, i.guid))) ∧
    (process_account pub feed items st acc).pubs.length
        = st.pubs.length + min POST_LIMIT
            (items.filter (fun i => !(has_posted st.postedItems feed.id acc.id i.guid))).length ∧
    (process_account pub feed items st acc).skipped
        = st.skipped + ((items.filter
            (fun i => !(has_posted st.postedItems feed.id acc.id i.guid))).length - POST_LIMIT) := by
  simp only [process_account]
  obtain ⟨h1, h2⟩ := foldl_post_one_pubs pub feed acc
    ((items.filter (fun i => !(has_posted st.postedItems feed.id acc.id i.guid))).reverse.take
      POST_LIMIT)
    { st with skipped := st.skipped + ((items.filter
        (fun i => !(has_posted st.postedItems feed.id acc.id i.guid))).reverse.length
          - POST_LIMIT) }
  refine ⟨?_, ?_, ?_⟩
  · rw [h1]
  · rw [h1]
    simp [List.length_take, inf_eq_min]
  · rw [h2]
    simp

/-- C4: a fetch that returns no items for a feed with at least one eligible
account adds exactly one to the error count (whatever the number of linked
accounts), produces no publish attempt, leaves posted, skipped and the
ledger unchanged, records the failure line, and the remaining feeds of the
pass are processed from that state. -/
theorem claim_C4_fetch_failure_isolated (fetch : Feed → List Item)
    (pub : Account → PyStr → PubResult) (db : DB) (st : RunState) (feed : Feed)
    (rest : List Feed) (hacc : linked_accounts db feed ≠ []) (hempty : fetch feed = []) :
    (process_feed fetch pub db st feed).errors = st.errors + 1 ∧
    (process_feed fetch pub db st feed).pubs = st.pubs ∧
    (process_feed fetch pub db st feed).posted = st.posted ∧
    (process_feed fetch pub db st feed).skipped = st.skipped ∧
    (process_feed fetch pub db st feed).postedItems = st.postedItems ∧
    (process_feed fetch pub db st feed).lines = st.lines ++ [fetchFailedLine feed.url] ∧
    (process_feed fetch pub db st feed).fetches = st.fetches ++ [feed.id] ∧
    List.foldl (process_feed fetch pub db) st (feed :: rest)
      = List.foldl (process_feed fetch pub db) (process_feed fetch pub db st feed) rest := by
  refine ⟨?_, ?_, ?_, ?_, ?_, ?_, ?_, List.foldl_cons _ _⟩ <;>
    simp [process_feed, hacc, hempty]

/-- C4 witness: with one feed linked to one credentialed account and a fetch
oracle returning nothing, the error count rises by exactly one. -/
theorem claim_C4_fetch_failure_isolated_witness :
    linked_accounts
        ⟨[⟨1, "http://f".toList, "F".toList, [], true⟩],
         [⟨1, "http://m".toList, "tok".toList, "@a".toList⟩],
         [(1, 1)], []⟩ ⟨1, "http://f".toList, "F".toList, [], true⟩ ≠ [] ∧
    (process_feed (fun _ => []) (fun _ _ => PubResult.exn [])
        ⟨[⟨1, "http://f".toList, "F".toList, [], true⟩],
         [⟨1, "http://m".toList, "tok".toList, "@a".toList⟩],
         [(1, 1)], []⟩
        (initState ⟨[⟨1, "http://f".toList, "F".toList, [], true⟩],
         [⟨1, "http://m".toList, "tok".toList, "@a".toList⟩],
         [(1, 1)], []⟩)
        ⟨1, "http://f".toList, "F".toList, [], true⟩).errors
      = (initState ⟨[⟨1, "http://f".toList, "F".toList, [], true⟩],
         [⟨1, "http://m".toList, "tok".toList, "@a".toList⟩],
         [(1, 1)], []⟩).errors + 1 :=
  ⟨by decide,
   (claim_C4_fetch_failure_isolated _ _ _ _ _ [] (by decide) rfl).1⟩

/-- C9: an active feed whose eligible linked-account list is empty (no link
rows, or every linked account has an empty credential) yields exactly one
no-accounts detail line, no fetch, no status write, and no change to any
counter or to the ledger. -/
theorem claim_C9_no_accounts_informational (fetch : Feed → List Item)
    (pub : Account → PyStr → PubResult) (db : DB) (st : RunState) (feed : Feed)
    (h : linked_accounts db feed = []) :
    (process_feed fetch pub db st feed).lines = st.lines ++ [noAccountsLine feed.name] ∧
    (process_feed fetch pub db st feed).fetches = st.fetches ∧
    (process_feed fetch pub db st feed).errors = st.errors ∧
    (process_feed fetch pub db st feed).posted = st.posted ∧
    (process_feed fetch pub db st feed).skipped = st.skipped ∧
    (process_feed fetch pub db st feed).pubs = st.pubs ∧
    (process_feed fetch pub db st feed).postedItems = st.postedItems ∧
    (process_feed fetch pub db st feed).statusWrites = st.statusWrites := by
  refine ⟨?_, ?_, ?_, ?_, ?_, ?_, ?_, ?_⟩ <;> simp [process_feed, h]

/-- C9 witness: a feed with no link rows gets one no-accounts line and no
fetch and no error. -/
theorem claim_C9_no_accounts_informational_witness :
    linked_accounts
        ⟨[⟨1, "http://f".toList, "F".toList, [], true⟩],
         [⟨1, "http://m".toList, "tok".toList, "@a".toList⟩], [], []⟩
        ⟨1, "http://f".toList, "F".toList, [], true⟩ = [] ∧
    (process_feed (fun _ => []) (fun _ _ => PubResult.exn [])
        ⟨[⟨1, "http://f".toList, "F".toList, [], true⟩],
         [⟨1, "http://m".toList, "tok".toList, "@a".toList⟩], [], []⟩
        (initState ⟨[⟨1, "http://f".toList, "F".toList, [], true⟩],
         [⟨1, "http://m".toList, "tok".toList, "@a".toList⟩], [], []⟩)
        ⟨1, "http://f".toList, "F".toList, [], true⟩).lines
      = (initState ⟨[⟨1, "http://f".toList, "F".toList, [], true⟩],
         [⟨1, "http://m".toList, "tok".toList, "@a".toList⟩], [], []⟩).lines
        ++ [noAccountsLine "F".toList] :=
  ⟨by decide,
   (claim_C9_no_accounts_informational (fun _ => []) (fun _ _ => PubResult.exn [])
     _ _ _ (by decide)).1⟩

/-- C5: recording a posted triple is idempotent: a second insert of the same
triple changes nothing, the triple is reported as posted after either
insert, and when the triple was new exactly one ledger row for it exists
after the double insert. -/
theorem claim_C5_record_idempotent (ledger : List Triple) (t : Triple) :
    insertPosted (insertPosted ledger t) t = insertPosted ledger t ∧
    has_posted (insertPosted ledger t) t.1 t.2.1 t.2.2 = true ∧
    has_posted (insertPosted (insertPosted ledger t) t) t.1 t.2.1 t.2.2 = true ∧
    (t ∉ ledger → (insertPosted (insertPosted ledger t) t).count t = 1) := by
  obtain ⟨f, a, g⟩ := t
  have hmem : (f, a, g) ∈ insertPosted ledger (f, a, g) := by
    unfold insertPosted
    split
    · assumption
    · exact List.mem_append_right _ (List.mem_singleton.mpr rfl)
  have heq : insertPosted (insertPosted ledger (f, a, g)) (f, a, g)
      = insertPosted ledger (f, a, g) := insertPosted_mem_eq hmem
  refine ⟨heq, decide_eq_true hmem, ?_, ?_⟩
  · rw [heq]
    exact decide_eq_true hmem
  · intro hnot
    rw [heq]
    unfold insertPosted
    rw [if_neg hnot, List.count_append]
    rw [List.count_eq_zero.mpr hnot]
    simp

/-- C5 witness: inserting the same fresh triple twice into an empty ledger
is idempotent, reports posted, and leaves exactly one row. -/
theorem claim_C5_record_idempotent_witness :
    ((1 : Nat), (1 : Nat), "g".toList) ∉ ([] : List Triple) ∧
    insertPosted (insertPosted [] ((1 : Nat), (1 : Nat), "g".toList))
        ((1 : Nat), (1 : Nat), "g".toList)
      = insertPosted [] ((1 : Nat), (1 : Nat), "g".toList) ∧
    (insertPosted (insertPosted [] ((1 : Nat), (1 : Nat), "g".toList))
        ((1 : Nat), (1 : Nat), "g".toList)).count ((1 : Nat), (1 : Nat), "g".toList) = 1 :=
  ⟨by decide,
   (claim_C5_record_idempotent [] (1, 1, "g".toList)).1,
   (claim_C5_record_idempotent [] (1, 1, "g".toList)).2.2.2 (by decide)⟩

/-- C6: parse_feed converts any failure of the fetch-and-parse step into the
empty item list, whatever the failure was, instead of propagating it. -/
theorem claim_C6_fetch_error_empty (msg : PyStr) :
    parse_feed (Except.error msg) = [] := rfl

/-- C10: the formatted status is independent of the candidate item summary:
items agreeing on title and link format identically, whatever their desc
(and guid) fields. -/
theorem claim_C10_summary_independent (i j : Item) (feed_name hashtags : PyStr)
    (ht : i.title = j.title) (hl : i.link = j.link) :
    format_toot i feed_name hashtags = format_toot j feed_name hashtags := by
  cases i
  cases j
  cases ht
  cases hl
  rfl

/-- C10 witness: two items with the same title and link but different
summaries produce the identical status. -/
theorem claim_C10_summary_independent_witness :
    format_toot ⟨"g1".toList, "T".toList, "http://l".toList, "summary one".toList⟩
        "N".toList "tech".toList
      = format_toot ⟨"g2".toList, "T".toList, "http://l".toList, "summary two".toList⟩
        "N".toList "tech".toList :=
  claim_C10_summary_independent _ _ _ _ rfl rfl

/-- Character counts of the fixed literals of format_toot. -/
theorem toot_literal_lengths :
    ("📰 ".toList).length = 2 ∧ ("\n\n".toList).length = 2 ∧
    ("\n\n\n\n".toList).length = 4 ∧ ("…".toList).length = 1 := by
  refine ⟨rfl, rfl, rfl, rfl⟩

/-- Length decomposition of the overflow-branch base string. -/
theorem toot_base_length (item : Item) (feed_name hashtags : PyStr) :
    (toot_base item feed_name hashtags).length
      = 8 + (toot_src feed_name).length + item.link.length + (toot_tags hashtags).length := by
  obtain ⟨e1, _, e3, _⟩ := toot_literal_lengths
  simp only [toot_base, List.length_append, e1, e3]
  have e2 : ("\n\n".toList).length = 2 := rfl
  rw [e2]
  omega

set_option maxRecDepth 40000 in
/-- C2 counterexample: the claim bounds the message at 500 characters for
every feed display name, but a 600-character display name already pushes
the overflow branch past 500, because only the title is ever truncated. -/
theorem claim_C2_length_counterexample :
    500 < (format_toot ⟨"g".toList, [], [], []⟩ (List.replicate 600 'a') []).length := by
  decide

/-- C2 amended: whenever the non-title portion of the message (the base
string: source label, link, tags and their separators) fits in 480
characters, the formatted message never exceeds 500 characters (the
overflow branch then has a real budget and yields at most 491). -/
theorem claim_C2_length_bounded_amended (item : Item) (feed_name hashtags : PyStr)
    (h : (toot_base item feed_name hashtags).length ≤ 480) :
    (format_toot item feed_name hashtags).length ≤ 500 := by
  obtain ⟨e1, e2, _, e4⟩ := toot_literal_lengths
  have hb := toot_base_length item feed_name hashtags
  by_cases hl : item.link = [] <;>
  · simp only [format_toot, hl, ne_eq, eq_self_iff_true, not_true_eq_false,
      not_false_eq_true, ite_true, ite_false]
    split <;>
    · simp only [List.length_append, List.length_take, e1, e2, e4,
        inf_eq_min, sup_eq_max] at *
      omega

/-- C2 witness: an ordinary item, feed name and tag list satisfy the base
bound and format to at most 500 characters. -/
theorem claim_C2_length_bounded_amended_witness :
    (toot_base ⟨"g".toList, "A fairly long article title".toList,
        "http://example.com/x".toList, []⟩ "Blog".toList "tech, news".toList).length ≤ 480 ∧
    (format_toot ⟨"g".toList, "A fairly long article title".toList,
        "http://example.com/x".toList, []⟩ "Blog".toList "tech, news".toList).length ≤ 500 :=
  ⟨by decide, claim_C2_length_bounded_amended _ _ _ (by decide)⟩

/-- C7 counterexample: the claim keeps every entry that has an identifier
or a link, but an entry whose identifier is a whitespace-only string is
dropped even though it also carries a perfectly good link — the fallback
runs on raw truthiness before trimming, and the trimmed identifier is
empty. -/
theorem claim_C7_identity_counterexample :
    parse_feed (Except.ok
      [⟨some [' '], some "http://example.com/a".toList, some "t".toList, none, none⟩]) = [] ∧
    (some [' '] : Option PyStr) ≠ none ∧
    (some "http://example.com/a".toList : Option PyStr) ≠ none := by
  refine ⟨by decide, by decide, by decide⟩

/-- C7 amended: the identity source is the raw identifier when it is a
non-empty string, else the raw link; the guid is that source trimmed of
whitespace, the entry is dropped exactly when the trimmed source is empty
(in particular when neither field exists, but also when a whitespace-only
identifier shadows a link), and every returned item has a non-empty guid. -/
theorem claim_C7_identity_amended (e : Entry) :
    (pyStrip (orElseStr (e.id.getD []) (orElseStr (e.link.getD []) [])) = [] →
      normalizeEntry e = none) ∧
    (pyStrip (orElseStr (e.id.getD []) (orElseStr (e.link.getD []) [])) ≠ [] →
      (normalizeEntry e).map Item.guid
        = some (pyStrip (orElseStr (e.id.getD []) (orElseStr (e.link.getD []) [])))) ∧
    (e.id.getD [] ≠ [] →
      orElseStr (e.id.getD []) (orElseStr (e.link.getD []) []) = e.id.getD []) ∧
    (e.id.getD [] = [] →
      orElseStr (e.id.getD []) (orElseStr (e.link.getD []) [])
        = orElseStr (e.link.getD []) []) ∧
    (∀ i : Item, normalizeEntry e = some i → i.guid ≠ []) := by
  refine ⟨?_, ?_, ?_, ?_, ?_⟩
  · intro h
    simp [normalizeEntry, h]
  · intro h
    simp [normalizeEntry, h]
  · intro h
    simp [orElseStr, h]
  · intro h
    simp [orElseStr, h]
  · intro i hi
    by_cases hg : pyStrip (orElseStr (e.id.getD []) (orElseStr (e.link.getD []) [])) = []
    · simp [normalizeEntry, hg] at hi
    · simp [normalizeEntry, hg] at hi
      subst hi
      simpa using hg

/-- C7 witness: an entry with a plain identifier is kept with that
identifier as its guid. -/
theorem claim_C7_identity_amended_witness :
    pyStrip (orElseStr (((some "x".toList : Option PyStr)).getD [])
        (orElseStr (((some "http://l".toList : Option PyStr)).getD []) [])) ≠ [] ∧
    (normalizeEntry ⟨some "x".toList, some "http://l".toList, none, none, none⟩).map Item.guid
      = some (pyStrip (orElseStr (((some "x".toList : Option PyStr)).getD [])
          (orElseStr (((some "http://l".toList : Option PyStr)).getD []) []))) :=
  ⟨by decide,
   (claim_C7_identity_amended
     ⟨some "x".toList, some "http://l".toList, none, none, none⟩).2.1 (by decide)⟩

/-- C8 counterexample: when the seconds remaining exceed the interval, the
pct value of next_run_info goes negative — only the upper clamp at 100 is
applied, never the lower clamp at 0 that the claim asserts. -/
theorem claim_C8_pct_counterexample :
    next_run_pct 3600 < 0 ∧ next_run_pct 3600 ≠ spec_percent_elapsed 3600 := by
  have hq : (100 : ℚ) - ((3600 : Nat) : ℚ) / (((RSS_INTERVAL_MINS * 60 : Nat)) : ℚ) * 100
      = -100 := by
    norm_num [RSS_INTERVAL_MINS]
  have ht : ratTrunc (-100 : ℚ) = -100 := by
    unfold ratTrunc
    rw [if_pos (by norm_num),
      show ((-100 : ℚ)) = (((-100 : Int)) : ℚ) by norm_num, Int.ceil_intCast]
  constructor
  · unfold next_run_pct
    rw [hq, ht]
    decide
  · unfold next_run_pct spec_percent_elapsed
    rw [hq, ht]
    decide

/-- C8 amended: whenever the seconds remaining are at most the interval
(1800 seconds), the pct value equals the spec formula with both clamps, in
particular it lies in [0, 100]; beyond the interval only the upper clamp is
applied and the value can go negative. -/
theorem claim_C8_pct_amended (secs : Nat) (h : secs ≤ 1800) :
    next_run_pct secs = spec_percent_elapsed secs ∧
    0 ≤ next_run_pct secs ∧ next_run_pct secs ≤ 100 := by
  have hden : (((RSS_INTERVAL_MINS * 60 : Nat)) : ℚ) = 1800 := by
    norm_num [RSS_INTERVAL_MINS]
  have hq : 0 ≤ (100 : ℚ) - (secs : ℚ) / (((RSS_INTERVAL_MINS * 60 : Nat)) : ℚ) * 100 := by
    rw [hden]
    have hs : (secs : ℚ) ≤ 1800 := by exact_mod_cast h
    have hwork : (secs : ℚ) / 1800 * 100 ≤ 100 := by
      rw [div_mul_eq_mul_div, div_le_iff₀ (by norm_num)]
      nlinarith
    linarith
  have htr : 0 ≤ ratTrunc
      (100 - (secs : ℚ) / (((RSS_INTERVAL_MINS * 60 : Nat)) : ℚ) * 100) := by
    unfold ratTrunc
    rw [if_neg (not_lt.mpr hq)]
    exact Int.floor_nonneg.mpr hq
  refine ⟨?_, ?_, ?_⟩
  · unfold next_run_pct spec_percent_elapsed
    exact (max_eq_right (le_min (by norm_num) htr)).symm
  · unfold next_run_pct
    exact le_min (by norm_num) htr
  · unfold next_run_pct
    exact min_le_left _ _

/-- C8 witness: at 900 seconds remaining (half of the interval) the value
agrees with the clamped spec formula and lies in [0, 100]. -/
theorem claim_C8_pct_amended_witness :
    900 ≤ 1800 ∧
    (next_run_pct 900 = spec_percent_elapsed 900 ∧
      0 ≤ next_run_pct 900 ∧ next_run_pct 900 ≤ 100) :=
  ⟨by decide, claim_C8_pct_amended 900 (by decide)⟩

end Xrss
